import Mathlib

/-!
Verification development for the real-time chat relay server.

The embedding models the Socket.IO event handlers of src/index.js (the
authenticated main server), the alternate server src/server/index.js, and
the client form handler of src/public/js/chat.js. Messages are stored in a
MongoDB collection; the storage collaborator is external to the repository,
so it is modelled after the contract stated in the specification: atomic
strictly-increasing id assignment at insert, point lookup by id, range
lookup by id lower bound returning records in ascending id order, and
delete by id. Mongo ObjectId values are modelled as natural numbers and
their wire form as decimal strings, so that the round trip and the failure
of the ObjectId constructor on a malformed string are both expressible.
-/

namespace Chat

/-- A stored chat document, as built in the chat message handler of
src/index.js lines 130 to 134: content, user (the verified username bound
to the socket) and timestamp, plus the id the storage layer assigns at
insert. Timestamps are modelled as natural numbers. -/
structure Message where
  id : Nat
  content : String
  user : String
  timestamp : Nat
deriving DecidableEq

/-- The messages collection together with the next id the storage layer
will hand out. Modelled from the spec: the storage collaborator guarantees
atomic strictly-increasing id assignment, so the collection is a list in
insertion order plus a counter. -/
structure LogState where
  messages : List Message
  nextId : Nat
deriving DecidableEq

/-- The empty collection. -/
def emptyLog : LogState := { messages := [], nextId := 0 }

/-- Result of an insert attempt against the storage collaborator. -/
inductive InsertResult where
  | ok (insertedId : Nat) (st : LogState)
  | unavailable
deriving DecidableEq

/-- The state of the collection after a successful insert: the record is
appended with the next id, and the counter advances. -/
def insertState (st : LogState) (content user : String) (timestamp : Nat) :
    LogState :=
  { messages := st.messages ++ [⟨st.nextId, content, user, timestamp⟩],
    nextId := st.nextId + 1 }

/-- messagesCollection.insertOne of src/index.js line 138. Modelled from
the spec: the storage collaborator assigns the next id atomically and
appends the record; when the backing store cannot be written the call
fails, which the flag storageOk selects. -/
def insertOne (storageOk : Bool) (st : LogState) (content user : String)
    (timestamp : Nat) : InsertResult :=
  if storageOk then .ok st.nextId (insertState st content user timestamp)
  else .unavailable

/-- Rendering of an ObjectId on the wire, as result.insertedId.toString in
src/index.js line 141. Ids are modelled as naturals rendered in decimal. -/
def oidToString (n : Nat) : String := toString n

/-- Decimal digit value of a character, or none when the character is not
a digit. -/
def digitVal (c : Char) : Option Nat :=
  if '0' ≤ c ∧ c ≤ '9' then some (c.toNat - 48) else none

/-- Parse a list of characters as a decimal numeral. -/
def parseDigits : List Char → Nat → Option Nat
  | [], acc => some acc
  | c :: cs, acc =>
    match digitVal c with
    | some d => parseDigits cs (acc * 10 + d)
    | none => none

/-- The ObjectId constructor applied to a string, as new ObjectId(s) in
src/index.js lines 150 and 175: none models the exception thrown on a
string that is not a well-formed id. -/
def parseOidStr (s : String) : Option Nat :=
  if s.isEmpty then none else parseDigits s.data 0

/-- An event emitted by the server: a chat message broadcast or private
replay with the four arguments of src/index.js lines 141 and 179, or a
message deleted broadcast with the id string of line 159. -/
inductive Emit where
  | chatMessage (content : String) (id : String) (user : String) (timestamp : Nat)
  | messageDeleted (id : String)
deriving DecidableEq

/-- The replay emit built from a stored record, as socket.emit in
src/index.js line 179. -/
def emitOf (m : Message) : Emit :=
  .chatMessage m.content (oidToString m.id) m.user m.timestamp

/-- The chat message handler of src/index.js lines 129 to 145. The
document stores the payload as content and the verified socket user
username as user; on a successful insert the message is broadcast to all
connections; on a storage failure the catch block only logs, so the state
is unchanged and nothing is emitted. -/
def handleChatMessage (storageOk : Bool) (st : LogState)
    (boundUsername msg : String) (now : Nat) : LogState × List Emit :=
  match insertOne storageOk st msg boundUsername now with
  | .ok insertedId st1 =>
    (st1, [.chatMessage msg (oidToString insertedId) boundUsername now])
  | .unavailable => (st, [])

/-- messagesCollection.findOne on an id, src/index.js line 151. Modelled
from the spec: point lookup by id in the storage collaborator. -/
def findOneById (st : LogState) (oid : Nat) : Option Message :=
  st.messages.find? (fun m => m.id == oid)

/-- messagesCollection.deleteOne on an id, src/index.js line 157. Modelled
from the spec: delete by id in the storage collaborator, removing the
record with that id when present. -/
def deleteOneById (st : LogState) (oid : Nat) : LogState :=
  { st with messages := st.messages.eraseP (fun m => m.id == oid) }

/-- The delete message handler of src/index.js lines 148 to 166. A
malformed id string makes the ObjectId constructor throw inside the try
block, which the catch only logs; a missing message or an author mismatch
reaches the else branch, which only logs a warning; only when the message
exists and its user equals the verified socket user username is the record
deleted and a message deleted event broadcast, carrying the request id
string. -/
def handleDeleteMessage (st : LogState) (boundUsername messageId : String) :
    LogState × List Emit :=
  match parseOidStr messageId with
  | none => (st, [])
  | some oid =>
    match findOneById st oid with
    | some message =>
      if message.user == boundUsername then
        (deleteOneById st oid, [.messageDeleted messageId])
      else (st, [])
    | none => (st, [])

/-- A JavaScript value as it can appear in socket.handshake.auth
serverOffset: absent, a number, or a string. -/
inductive JsVal where
  | undef
  | num (n : Nat)
  | str (s : String)
deriving DecidableEq

/-- JavaScript truthiness for the modelled values: undefined, zero and the
empty string are falsy. -/
def truthy : JsVal → Bool
  | .undef => false
  | .num n => n != 0
  | .str s => s != ""

/-- The ObjectId constructor applied to the raw offset value of
src/index.js line 175. Only reached when the value is truthy: a number
yields the id with that value, a string is parsed and a malformed one
throws, modelled as none. The undefined branch is unreachable under the
truthiness guard. -/
def newObjectId : JsVal → Option Nat
  | .undef => none
  | .num n => some n
  | .str s => parseOidStr s

/-- The recovery replay block of src/index.js lines 170 to 184. Nothing
happens on a recovered connection. Otherwise, a falsy offset selects the
empty query, returning the whole collection; a truthy offset is fed to the
ObjectId constructor, whose exception on a malformed value is caught with
nothing emitted, and a valid value selects the records with a strictly
greater id. The find call is modelled from the spec: range lookup by id
lower bound, returned in ascending id order, which for this append-only
collection is insertion order. Each returned record is emitted privately
to the connecting socket. -/
def handleRecovery (recovered : Bool) (st : LogState) (serverOffset : JsVal) :
    List Emit :=
  if recovered then []
  else if truthy serverOffset then
    match newObjectId serverOffset with
    | some oid => ((st.messages.filter fun m => oid < m.id).map emitOf)
    | none => []
  else st.messages.map emitOf

/-- A sequence of appends, each a payload, a verified author and a
timestamp, run against the log with a working store; returns the final
state and the ids assigned in order. This is the chat message handler
insert of src/index.js line 138 iterated over any interleaving of sending
connections. -/
def runAppends (st : LogState) (reqs : List (String × String × Nat)) :
    LogState × List Nat :=
  match reqs with
  | [] => (st, [])
  | (msg, u, t) :: rest =>
    match insertOne true st msg u t with
    | .ok insertedId st1 =>
      ((runAppends st1 rest).1, insertedId :: (runAppends st1 rest).2)
    | .unavailable => runAppends st rest

/-- The form submit handler of src/public/js/chat.js lines 52 to 60: the
chat message event is emitted with the input value only when the input
value is truthy, that is, a nonempty string. Returns the list of emitted
payloads. -/
def clientSubmitEmits (inputValue : String) : List String :=
  if inputValue != "" then [inputValue] else []

/-- A stored chat document of the alternate server src/server/index.js
line 53: content and user only, no timestamp, plus the assigned id. -/
structure AltMessage where
  id : Nat
  content : String
  user : String
deriving DecidableEq

/-- The messages collection of the alternate server. -/
structure AltLogState where
  messages : List AltMessage
  nextId : Nat
deriving DecidableEq

/-- The empty alternate collection. -/
def emptyAltLog : AltLogState := { messages := [], nextId := 0 }

/-- A chat message broadcast of the alternate server, src/server/index.js
line 59: content, id string and user, no timestamp. -/
inductive AltEmit where
  | chatMessage (content : String) (id : String) (user : String)
deriving DecidableEq

/-- The chat message handler of src/server/index.js lines 49 to 60. The
username is socket.handshake.auth.username with the nullish fallback
anonymous, a client-supplied handshake field; this server has no identity
binding middleware and no socket user. On insert failure the handler
returns early and nothing is emitted. -/
def altHandleChatMessage (storageOk : Bool) (st : AltLogState)
    (handshakeAuthUsername : Option String) (msg : String) :
    AltLogState × List AltEmit :=
  let username := handshakeAuthUsername.getD "anonymous"
  if storageOk then
    ({ messages := st.messages ++ [⟨st.nextId, msg, username⟩],
       nextId := st.nextId + 1 },
     [.chatMessage msg (oidToString st.nextId) username])
  else (st, [])

/-- Well-formedness of the collection, the invariant the spec states for
the log: records are in strictly increasing id order, and every stored id
is below the next id to be assigned. -/
def LogState.WF (st : LogState) : Prop :=
  st.messages.Pairwise (fun a b => a.id < b.id) ∧
  ∀ m ∈ st.messages, m.id < st.nextId

end Chat

namespace Chat

instance instDecWF (st : LogState) : Decidable st.WF := by
  unfold LogState.WF
  infer_instance

theorem runAppends_nil (st : LogState) : runAppends st [] = (st, []) := rfl

theorem runAppends_cons (st : LogState) (msg u : String) (t : Nat)
    (rest : List (String × String × Nat)) :
    runAppends st ((msg, u, t) :: rest) =
      ((runAppends (insertState st msg u t) rest).1,
       st.nextId :: (runAppends (insertState st msg u t) rest).2) := rfl

theorem insertState_WF {st : LogState} (h : st.WF) (c u : String) (t : Nat) :
    (insertState st c u t).WF := by
  constructor
  · refine List.pairwise_append.mpr ⟨h.1, List.pairwise_singleton _ _, ?_⟩
    intro a ha b hb
    simp only [List.mem_singleton] at hb
    subst hb
    exact h.2 a ha
  · intro m hm
    simp only [insertState, List.mem_append, List.mem_singleton] at hm
    rcases hm with hm | hm
    · have := h.2 m hm
      simp only [insertState]
      omega
    · subst hm
      simp [insertState]

theorem deleteOneById_WF {st : LogState} (h : st.WF) (oid : Nat) :
    (deleteOneById st oid).WF := by
  constructor
  · exact h.1.sublist (List.eraseP_sublist _)
  · intro m hm
    exact h.2 m ((List.eraseP_sublist _).subset hm)

theorem runAppends_ids_ge (reqs : List (String × String × Nat)) :
    ∀ st : LogState, ∀ i ∈ (runAppends st reqs).2, st.nextId ≤ i := by
  induction reqs with
  | nil =>
    intro st i hi
    simp [runAppends] at hi
  | cons r rest ih =>
    intro st i hi
    obtain ⟨msg, u, t⟩ := r
    rw [runAppends_cons] at hi
    simp only [List.mem_cons] at hi
    rcases hi with hi | hi
    · omega
    · have := ih (insertState st msg u t) i hi
      simp only [insertState] at this
      omega

theorem runAppends_ids_pairwise (reqs : List (String × String × Nat)) :
    ∀ st : LogState, (runAppends st reqs).2.Pairwise (· < ·) := by
  induction reqs with
  | nil =>
    intro st
    simp [runAppends]
  | cons r rest ih =>
    intro st
    obtain ⟨msg, u, t⟩ := r
    rw [runAppends_cons]
    refine List.pairwise_cons.mpr ⟨?_, ih _⟩
    intro b hb
    have := runAppends_ids_ge rest (insertState st msg u t) b hb
    simp only [insertState] at this
    omega

/-- C5: a connection whose handshake is resumed receives zero privately
replayed history messages, whatever the state of the log and whatever
clientOffset value the handshake carries. -/
theorem c5_resumed_never_replays (st : LogState) (serverOffset : JsVal) :
    handleRecovery true st serverOffset = [] := rfl

/-- C6: when the storage insert fails during a chat message event, the
handler returns normally with the log unchanged and emits nothing, neither
a broadcast nor an error payload to the sender; the insert really did
fail, as the first conjunct records. -/
theorem c6_storage_failure_contained (st : LogState) (u msg : String) (t : Nat) :
    insertOne false st msg u t = .unavailable ∧
    handleChatMessage false st u msg t = (st, []) :=
  ⟨rfl, rfl⟩

/-- C3: over any sequence of appends, from any interleaving of sending
connections and payloads, the ids assigned at insert are strictly
increasing in insertion order and pairwise distinct. -/
theorem c3_append_ids_strictly_increasing (st : LogState)
    (reqs : List (String × String × Nat)) :
    (runAppends st reqs).2.Pairwise (· < ·) ∧ (runAppends st reqs).2.Nodup :=
  ⟨runAppends_ids_pairwise reqs st,
   (runAppends_ids_pairwise reqs st).imp Nat.ne_of_lt⟩

/-- C4: on a fresh connection, an absent offset and the number zero both
select the empty query and replay the whole log; a well-formed offset
string denoting id k replays exactly the records with id strictly greater
than k; both lists are in strictly ascending id order on a well-formed
log. -/
theorem c4_findAfter_semantics (st : LogState) (k : Nat) (sid : String)
    (hw : st.WF) (hs : parseOidStr sid = some k) :
    handleRecovery false st .undef = st.messages.map emitOf ∧
    handleRecovery false st (.num 0) = st.messages.map emitOf ∧
    handleRecovery false st (.str sid) =
      ((st.messages.filter fun m => k < m.id).map emitOf) ∧
    ((st.messages.filter fun m => k < m.id).map Message.id).Pairwise (· < ·) ∧
    (st.messages.map Message.id).Pairwise (· < ·) := by
  have hne : sid ≠ "" := by
    intro h
    subst h
    have h0 : parseOidStr "" = none := by decide
    rw [h0] at hs
    cases hs
  refine ⟨rfl, rfl, ?_, ?_, ?_⟩
  · simp [handleRecovery, truthy, hne, newObjectId, hs]
  · exact List.pairwise_map.mpr (hw.1.sublist (List.filter_sublist _))
  · exact List.pairwise_map.mpr hw.1

/-- A concrete two-message log used to witness the recovery theorems. -/
def stAB : LogState :=
  { messages := [⟨0, "a", "alice", 1⟩, ⟨1, "b", "bob", 2⟩], nextId := 2 }

/-- Witness for C4 at the concrete log stAB with offset string 0. -/
theorem c4_findAfter_semantics_witness :
    stAB.WF ∧ parseOidStr "0" = some 0 ∧
    (handleRecovery false stAB .undef = stAB.messages.map emitOf ∧
     handleRecovery false stAB (.num 0) = stAB.messages.map emitOf ∧
     handleRecovery false stAB (.str "0") =
       ((stAB.messages.filter fun m => 0 < m.id).map emitOf) ∧
     ((stAB.messages.filter fun m => 0 < m.id).map Message.id).Pairwise (· < ·) ∧
     (stAB.messages.map Message.id).Pairwise (· < ·)) :=
  ⟨by decide, by decide, c4_findAfter_semantics stAB 0 "0" (by decide) (by decide)⟩

theorem find?_eraseP_of_pairwise (oid : Nat) :
    ∀ l : List Message, l.Pairwise (fun a b => a.id < b.id) →
      (l.eraseP fun m => m.id == oid).find? (fun m => m.id == oid) = none := by
  intro l
  induction l with
  | nil =>
    intro _
    rfl
  | cons a l ih =>
    intro hl
    rcases List.pairwise_cons.mp hl with ⟨ha, hl2⟩
    by_cases h : (a.id == oid) = true
    · have he : (a :: l).eraseP (fun m => m.id == oid) = l := by
        simp [List.eraseP_cons, h]
      rw [he]
      refine List.find?_eq_none.mpr ?_
      intro x hx
      have hlt := ha x hx
      have haid : a.id = oid := by simpa using h
      simp only [beq_iff_eq]
      omega
    · have he : (a :: l).eraseP (fun m => m.id == oid) =
          a :: l.eraseP (fun m => m.id == oid) := by
        simp [List.eraseP_cons, h]
      have hpa : (a.id == oid) = false := by simpa using h
      rw [he, List.find?_cons, hpa]
      exact ih hl2

theorem findOneById_deleteOneById (st : LogState) (hw : st.WF) (oid : Nat) :
    findOneById (deleteOneById st oid) oid = none :=
  find?_eraseP_of_pairwise oid st.messages hw.1

/-- C2: when the delete target exists but its author differs from the
requesting connection's bound identity, the handler leaves the log
unchanged and emits nothing, neither an invalidation broadcast nor an
error payload; the same observable pair is produced on any log where the
target id does not exist, so the two outcomes are indistinguishable to the
requester. -/
theorem c2_unauthorized_delete_indistinguishable (st : LogState)
    (username messageId : String) (oid : Nat) (m : Message)
    (hp : parseOidStr messageId = some oid)
    (hf : findOneById st oid = some m)
    (hne : m.user ≠ username) :
    handleDeleteMessage st username messageId = (st, []) ∧
    ∀ st2 : LogState, findOneById st2 oid = none →
      handleDeleteMessage st2 username messageId = (st2, []) := by
  constructor
  · simp [handleDeleteMessage, hp, hf, hne]
  · intro st2 h2
    simp [handleDeleteMessage, hp, h2]

/-- A concrete one-message log, its author alice, used as witness data. -/
def stA : LogState :=
  { messages := [⟨0, "hi", "alice", 1⟩], nextId := 1 }

/-- The single message of stA. -/
def mA : Message := ⟨0, "hi", "alice", 1⟩

/-- Witness for C2: bob requests deletion of the message alice authored;
the log is returned unchanged and nothing is emitted. -/
theorem c2_unauthorized_delete_indistinguishable_witness :
    parseOidStr "0" = some 0 ∧ findOneById stA 0 = some mA ∧
    mA.user ≠ "bob" ∧ handleDeleteMessage stA "bob" "0" = (stA, []) :=
  ⟨by decide, by decide, by decide,
   (c2_unauthorized_delete_indistinguishable stA "bob" "0" 0 mA (by decide)
     (by decide) (by decide)).1⟩

/-- C7: deleting an owned message twice: the first request removes exactly
that record and broadcasts one invalidation carrying the request id
string; the second request on the resulting log finds nothing, changes no
state and broadcasts nothing. -/
theorem c7_delete_twice_idempotent (st : LogState) (u sid : String)
    (m : Message) (hw : st.WF) (hp : parseOidStr sid = some m.id)
    (hf : findOneById st m.id = some m) (hu : m.user = u) :
    (handleDeleteMessage st u sid).2 = [.messageDeleted sid] ∧
    (handleDeleteMessage st u sid).1 = deleteOneById st m.id ∧
    m ∉ (handleDeleteMessage st u sid).1.messages ∧
    handleDeleteMessage (handleDeleteMessage st u sid).1 u sid =
      ((handleDeleteMessage st u sid).1, []) := by
  have hfirst : handleDeleteMessage st u sid =
      (deleteOneById st m.id, [.messageDeleted sid]) := by
    simp [handleDeleteMessage, hp, hf, hu]
  have hnone : findOneById (deleteOneById st m.id) m.id = none :=
    findOneById_deleteOneById st hw m.id
  have hnotin : m ∉ (deleteOneById st m.id).messages := by
    intro hmem
    have hx := List.find?_eq_none.mp hnone m hmem
    simp at hx
  have hsecond : handleDeleteMessage (deleteOneById st m.id) u sid =
      (deleteOneById st m.id, []) := by
    simp [handleDeleteMessage, hp, hnone]
  refine ⟨by rw [hfirst], by rw [hfirst], ?_, ?_⟩
  · rw [hfirst]
    exact hnotin
  · rw [hfirst]
    exact hsecond

/-- Witness for C7: alice deletes her only message, then deletes it again. -/
theorem c7_delete_twice_idempotent_witness :
    stA.WF ∧ parseOidStr "0" = some mA.id ∧ findOneById stA mA.id = some mA ∧
    mA.user = "alice" ∧
    (handleDeleteMessage stA "alice" "0").2 = [.messageDeleted "0"] ∧
    handleDeleteMessage (handleDeleteMessage stA "alice" "0").1 "alice" "0" =
      ((handleDeleteMessage stA "alice" "0").1, []) :=
  ⟨by decide, by decide, by decide, by decide,
   (c7_delete_twice_idempotent stA "alice" "0" mA (by decide) (by decide)
     (by decide) (by decide)).1,
   (c7_delete_twice_idempotent stA "alice" "0" mA (by decide) (by decide)
     (by decide) (by decide)).2.2.2⟩

/-- C9: a delete request whose id string is malformed makes the ObjectId
constructor throw inside the try block; the exception is caught, the log
is unchanged, nothing is emitted to anyone, and the connection remains
usable: a later chat message from the same connection still appends and
broadcasts normally. -/
theorem c9_malformed_delete_id_caught (st : LogState) (u sid : String)
    (h : parseOidStr sid = none) :
    handleDeleteMessage st u sid = (st, []) ∧
    ∀ msg t, handleChatMessage true (handleDeleteMessage st u sid).1 u msg t =
      (insertState st msg u t,
       [.chatMessage msg (oidToString st.nextId) u t]) := by
  have h1 : handleDeleteMessage st u sid = (st, []) := by
    simp [handleDeleteMessage, h]
  refine ⟨h1, ?_⟩
  intro msg t
  rw [h1]
  rfl

/-- Witness for C9 at the malformed id string xyz. -/
theorem c9_malformed_delete_id_caught_witness :
    parseOidStr "xyz" = none ∧
    handleDeleteMessage stA "alice" "xyz" = (stA, []) ∧
    handleChatMessage true (handleDeleteMessage stA "alice" "xyz").1 "alice" "yo" 2 =
      (insertState stA "yo" "alice" 2,
       [.chatMessage "yo" (oidToString stA.nextId) "alice" 2]) :=
  ⟨by decide,
   (c9_malformed_delete_id_caught stA "alice" "xyz" (by decide)).1,
   (c9_malformed_delete_id_caught stA "alice" "xyz" (by decide)).2 "yo" 2⟩

/-- C10: on a fresh handshake whose declared offset is a truthy but
malformed id string, the ObjectId constructor throws inside the try block;
the exception is caught, the client receives zero replayed messages, and
the connection is registered and usable: a chat message from it still
appends and broadcasts normally. -/
theorem c10_malformed_offset_caught (st : LogState) (u sid : String)
    (hne : sid ≠ "") (h : parseOidStr sid = none) :
    handleRecovery false st (.str sid) = [] ∧
    ∀ msg t, handleChatMessage true st u msg t =
      (insertState st msg u t,
       [.chatMessage msg (oidToString st.nextId) u t]) := by
  constructor
  · simp [handleRecovery, truthy, hne, newObjectId, h]
  · intro msg t
    rfl

/-- Witness for C10 at the malformed offset string xyz. -/
theorem c10_malformed_offset_caught_witness :
    "xyz" ≠ "" ∧ parseOidStr "xyz" = none ∧
    handleRecovery false stA (.str "xyz") = [] ∧
    handleChatMessage true stA "alice" "yo" 2 =
      (insertState stA "yo" "alice" 2,
       [.chatMessage "yo" (oidToString stA.nextId) "alice" 2]) :=
  ⟨by decide, by decide,
   (c10_malformed_offset_caught stA "alice" "xyz" (by decide) (by decide)).1,
   (c10_malformed_offset_caught stA "alice" "xyz" (by decide) (by decide)).2 "yo" 2⟩

/-- C1 counterexample: in the chat message handler of src/server/index.js,
the stored author is exactly the client-supplied handshake auth username.
Two handshakes differing only in that field store different authors, and
an absent field stores the fallback anonymous, so the author IS taken from
a client-supplied handshake field there, refuting the claim as stated for
that handler. -/
theorem c1_author_counterexample :
    (altHandleChatMessage true emptyAltLog (some "mallory") "hi").1.messages =
      [⟨0, "hi", "mallory"⟩] ∧
    (altHandleChatMessage true emptyAltLog (some "eve") "hi").1.messages =
      [⟨0, "hi", "eve"⟩] ∧
    (altHandleChatMessage true emptyAltLog none "hi").1.messages =
      [⟨0, "hi", "anonymous"⟩] ∧
    (altHandleChatMessage true emptyAltLog (some "mallory") "hi").2 =
      [.chatMessage "hi" "0" "mallory"] :=
  ⟨rfl, rfl, rfl, rfl⟩

/-- C1 amended: in the main server src/index.js, every stored record takes
its author from the verified identity bound to the connection and its
content from the payload, for every payload; in the alternate server
src/server/index.js, the author is the client-supplied handshake auth
username with fallback anonymous, and is still never taken from the
message payload. -/
theorem c1_author_is_bound_identity (st : LogState) (u msg : String)
    (t : Nat) (ast : AltLogState) (h : Option String) (amsg : String) :
    (handleChatMessage true st u msg t).1.messages =
      st.messages ++ [⟨st.nextId, msg, u, t⟩] ∧
    (handleChatMessage true st u msg t).2 =
      [.chatMessage msg (oidToString st.nextId) u t] ∧
    (altHandleChatMessage true ast h amsg).1.messages =
      ast.messages ++ [⟨ast.nextId, amsg, h.getD "anonymous"⟩] :=
  ⟨rfl, rfl, rfl⟩

/-- C8 counterexample: the server-side chat message handler performs no
emptiness check; an incoming event with empty content is appended to the
log and broadcast to all connections, refuting the claim that nothing is
appended and nothing is broadcast. -/
theorem c8_empty_content_counterexample :
    (handleChatMessage true emptyLog "alice" "" 0).1.messages =
      [⟨0, "", "alice", 0⟩] ∧
    (handleChatMessage true emptyLog "alice" "" 0).2 =
      [.chatMessage "" "0" "alice" 0] :=
  ⟨rfl, rfl⟩

/-- C8 amended: the empty-content rejection lives in the client alone: the
form submit handler emits no chat message event when the input value is
empty, so no such event reaches the server in the shipped client; the
server itself appends and broadcasts whatever content arrives, including
the empty string. -/
theorem c8_empty_rejected_only_client_side (st : LogState) (u : String)
    (t : Nat) :
    clientSubmitEmits "" = [] ∧
    (handleChatMessage true st u "" t).1.messages =
      st.messages ++ [⟨st.nextId, "", u, t⟩] ∧
    (handleChatMessage true st u "" t).2 =
      [.chatMessage "" (oidToString st.nextId) u t] :=
  ⟨rfl, rfl, rfl⟩

end Chat
